import Mathlib

/-!
Verification development for the `image_drawer` repository
(`src/image_drawer.c`).

The C program is embedded shallowly:

* C strings are `List Char` (`Str`); the helpers `splitFirst`, `strstrAfter`,
  `scanInt`, `scan4` model `strchr`, `strstr` and `sscanf("%d")` /
  `sscanf("%d,%d,%d,%d")` exactly (`%d` skips leading whitespace, accepts an
  optional sign, requires at least one digit, ignores trailing junk);
* machine `int` becomes `Int` (the coordinates used by the program are far
  from overflow); C truncating division `t/2` becomes `Int.tdiv t 2`;
* the `float` computations in `draw_thick_line` and `draw_filled_circle`
  (`sqrt`, division, the `(int)` casts) are modelled by exact integer
  arithmetic: `(int)sqrt(v)` is the integer square root `isqrt`
  (proved equal to `Nat.sqrt`), and the truncation toward zero of
  `a / sqrt s` is `truncDivSqrt a s = sign a * isqrt (a*a / s)`, which is
  the exact value of the C expression under real-number semantics;
* the SDL draw calls (`SDL_RenderDrawPoint`, `SDL_RenderDrawLine`,
  `SDL_RenderFillRect`, `SDL_RenderCopy`, `SDL_RenderClear`) become
  constructors of `DrawOp`; a drawing routine returns the list of draw calls
  it emits, in order;
* `parse_drawing_file` reads its input with `fgets`; the file is modelled as
  the list of its lines (newline stripped, as the C code does with `strcspn`).
  Each loop iteration is `processLine`; the whole loop is a fold.
-/

abbrev Str := List Char

/-- Model of `isspace` for the characters `sscanf`'s `%d` skips. -/
def isSpaceChar (c : Char) : Bool :=
  c = ' ' || c = '\t' || c = '\n' || c = '\r' || c = '\x0b' || c = '\x0c'

def dropSpaces : Str → Str
  | [] => []
  | c :: cs => if isSpaceChar c then dropSpaces cs else c :: cs

/-- Accumulate a run of decimal digits (the digit-consuming loop of `%d`). -/
def readDigits (acc : Nat) : Str → Nat × Str
  | [] => (acc, [])
  | c :: cs =>
    if c.isDigit then readDigits (acc * 10 + (c.toNat - 48)) cs else (acc, c :: cs)

/-- `%d` needs at least one digit after the optional sign. -/
def readDigitsOpt : Str → Option (Nat × Str)
  | [] => none
  | c :: cs => if c.isDigit then some (readDigits (c.toNat - 48) cs) else none

def scanIntCore : Str → Option (Int × Str)
  | [] => none
  | c :: cs =>
    if c = '-' then
      match readDigitsOpt cs with
      | some (n, r) => some (-(n : Int), r)
      | none => none
    else if c = '+' then
      match readDigitsOpt cs with
      | some (n, r) => some ((n : Int), r)
      | none => none
    else
      match readDigitsOpt (c :: cs) with
      | some (n, r) => some ((n : Int), r)
      | none => none

/-- One `%d` conversion of `sscanf`: skip whitespace, optional sign, digits. -/
def scanInt (s : Str) : Option (Int × Str) := scanIntCore (dropSpaces s)

/-- A literal character of a `sscanf` format string must match exactly. -/
def expectChar (c : Char) : Str → Option Str
  | [] => none
  | d :: rest => if d = c then some rest else none

/-- `sscanf(s, "%d,%d,%d,%d", ...) == 4`. -/
def scan4 (s : Str) : Option (Int × Int × Int × Int) := do
  let (a, r1) ← scanInt s
  let r1b ← expectChar ',' r1
  let (b, r2) ← scanInt r1b
  let r2b ← expectChar ',' r2
  let (c, r3) ← scanInt r2b
  let r3b ← expectChar ',' r3
  let (d, _) ← scanInt r3b
  pure (a, b, c, d)

/-- `strchr`: split a string at the first occurrence of a character. -/
def splitFirst (c : Char) : Str → Option (Str × Str)
  | [] => none
  | d :: rest =>
    if d = c then some ([], rest)
    else
      match splitFirst c rest with
      | some (pre, post) => some (d :: pre, post)
      | none => none

def startsWith : Str → Str → Bool
  | [], _ => true
  | _ :: _, [] => false
  | p :: ps, c :: cs => p = c && startsWith ps cs

/-- `strstr`: the remainder of the string after the first occurrence of
`pat`, or `none` when `pat` does not occur.  (The C call returns a pointer
to the match; the parser always advances past the pattern, so returning the
suffix after it is the faithful interface.) -/
def strstrAfter (pat : Str) : Str → Option Str
  | [] => if startsWith pat [] then some [] else none
  | c :: cs =>
    if startsWith pat (c :: cs) then some ((c :: cs).drop pat.length)
    else strstrAfter pat cs

def pointPat : Str := ['p', 'o', 'i', 'n', 't', '(']

def linePat : Str := ['l', 'i', 'n', 'e', '(']

/-- A point of the drawing file: `point(x,y,"label")` (struct `Point`). -/
structure ParsedPoint where
  x : Int
  y : Int
  label : Str
deriving DecidableEq

/-- A line of the drawing file: `line(x1,y1,x2,y2)` (struct `Line`; the
label fields of its two endpoints are always `NULL` and are omitted). -/
structure LineSeg where
  x1 : Int
  y1 : Int
  x2 : Int
  y2 : Int
deriving DecidableEq

/-- Which diagnostic `fprintf(stderr, ...)` a rejected line produces. -/
inductive DiagKind
  | pointFail
  | lineFail
  | unrecognized
deriving DecidableEq

/-- What one iteration of the parse loop decides about one input line,
before the capacity check. -/
inductive LineResult
  | ignored
  | point (x y : Int) (label : Str)
  | lineSeg (x1 y1 x2 y2 : Int)
  | diag (k : DiagKind)
deriving DecidableEq

/-- The point branch of `parse_drawing_file` (lines 234-288 of the C file):
after `strstr(line_buffer, "point(")` succeeded, `rest` is the text after
`point(`.  The C code null-terminates at the first `)`, splits at the first
two commas, reads the two integers with `sscanf("%d")`, and takes the label
as the text between the first pair of double quotes after the second comma,
requiring the first quote not to be the last character before the `)`.
Every failure falls through to the same `Failed to parse point format`
diagnostic, so a single `Option` captures the branch. -/
def parsePointParams (rest : Str) : Option (Int × Int × Str) := do
  let (param, _) ← splitFirst ')' rest
  let (xs, r1) ← splitFirst ',' param
  let (ys, r2) ← splitFirst ',' r1
  let (_, afterQ) ← splitFirst '"' r2
  if afterQ = [] then none
  else do
    let (label, _) ← splitFirst '"' afterQ
    let (x, _) ← scanInt xs
    let (y, _) ← scanInt ys
    pure (x, y, label)

/-- The line branch of `parse_drawing_file` (lines 297-327 of the C file):
after `strstr(line_buffer, "line(")` succeeded, null-terminate at the first
`)` and require `sscanf(param, "%d,%d,%d,%d") == 4`. -/
def parseLineParams (rest : Str) : Option (Int × Int × Int × Int) := do
  let (param, _) ← splitFirst ')' rest
  scan4 param

/-- One iteration of the `fgets` loop of `parse_drawing_file`, without the
capacity check: skip the line when it is empty or its first character is
`#`; otherwise try the point branch if `point(` occurs anywhere in the
line, else the line branch if `line(` occurs anywhere, else diagnose an
unrecognized line. -/
def classifyLine : Str → LineResult
  | [] => .ignored
  | c :: cs =>
    if c = '#' then .ignored
    else
      match strstrAfter pointPat (c :: cs) with
      | some rest =>
        match parsePointParams rest with
        | some (x, y, l) => .point x y l
        | none => .diag .pointFail
      | none =>
        match strstrAfter linePat (c :: cs) with
        | some rest =>
          match parseLineParams rest with
          | some (a, b, c', d) => .lineSeg a b c' d
          | none => .diag .lineFail
        | none => .diag .unrecognized

/-- `#define MAX_DRAW_ELEMENTS 500`. -/
def MAX_DRAW_ELEMENTS : Nat := 500

/-- The state threaded through `parse_drawing_file`: the `points` and
`lines` arrays with their counts, plus how many diagnostics have been
printed to `stderr`. -/
structure ParseState where
  points : List ParsedPoint
  lines : List LineSeg
  diags : Nat
deriving DecidableEq

/-- One full iteration of the parse loop: classify the line, then apply the
capacity check (`*point_count < max_elements` / `*line_count <
max_elements`); a parsed element past capacity is dropped with a
`Max points reached` / `Max lines reached` diagnostic. -/
def processLine (maxElements : Nat) (st : ParseState) (s : Str) : ParseState :=
  match classifyLine s with
  | .ignored => st
  | .point x y l =>
    if st.points.length < maxElements then
      { st with points := st.points ++ [⟨x, y, l⟩] }
    else
      { st with diags := st.diags + 1 }
  | .lineSeg a b c d =>
    if st.lines.length < maxElements then
      { st with lines := st.lines ++ [⟨a, b, c, d⟩] }
    else
      { st with diags := st.diags + 1 }
  | .diag _ => { st with diags := st.diags + 1 }

/-- The whole `while (fgets(...))` loop, starting from a given state. -/
def parseFrom (maxElements : Nat) (st : ParseState) (ls : List Str) : ParseState :=
  ls.foldl (processLine maxElements) st

/-- `parse_drawing_file` as called by `main`: counts start at zero and the
capacity is `MAX_DRAW_ELEMENTS` for both categories. -/
def parse_drawing_file (ls : List Str) : ParseState :=
  parseFrom MAX_DRAW_ELEMENTS ⟨[], [], 0⟩ ls

def strOf (s : String) : Str := s.toList

/-! ### Rasterizer -/

/-- One SDL draw call, in the order the program issues them. -/
inductive DrawOp
  | clear
  | image
  | pixel (x y : Int)
  | seg (x1 y1 x2 y2 : Int)
  | rect (x y w h : Int)
  | textCopy (s : Str) (x y : Int)
deriving DecidableEq

/-- The inclusive integer range `[lo, hi]` of a C `for (i = lo; i <= hi; ++i)`
loop (empty when `hi < lo`). -/
def intRange (lo hi : Int) : List Int :=
  (List.range (hi + 1 - lo).toNat).map (fun k : Nat => lo + (k : Int))

/-- Largest `k ≤ m` with `k * k ≤ n`, by downward scan (a structurally
recursive integer square root, so that the kernel can evaluate it). -/
def isqrtFrom (n : Nat) : Nat → Nat
  | 0 => 0
  | k + 1 => if (k + 1) * (k + 1) ≤ n then k + 1 else isqrtFrom n k

/-- Integer square root: `⌊ sqrt n ⌋`, the value the C code obtains by
truncating `sqrt` to an `int`. -/
def isqrt (n : Nat) : Nat := isqrtFrom n n

/-- `const int DRAW_LINE_THICKNESS = 5`. -/
def DRAW_LINE_THICKNESS : Int := 5

/-- `const int DRAW_POINT_RADIUS = 4`. -/
def DRAW_POINT_RADIUS : Int := 4

/-- `draw_filled_circle`: for each row offset `y` in `[-radius, radius]`,
clamp `radius*radius - y*y` at zero, take the integer square root (the C
code stores `sqrt` into an `int`, truncating), and emit one horizontal
`SDL_RenderDrawLine` span centred on `cx`. -/
def draw_filled_circle (cx cy radius : Int) : List DrawOp :=
  (intRange (-radius) radius).map (fun y =>
    let xSquared : Int := radius * radius - y * y
    let xSquaredClamped : Int := if xSquared < 0 then 0 else xSquared
    let xSpan : Int := (isqrt xSquaredClamped.toNat : Int)
    DrawOp.seg (cx - xSpan) (cy + y) (cx + xSpan) (cy + y))

/-- Exact value of the C expression `(int)(a / sqrt(s))` (truncation toward
zero), under real-number semantics of the float arithmetic:
`sign a * ⌊ |a| / sqrt s ⌋ = sign a * Nat.sqrt (a² / s)`. -/
def truncDivSqrt (a : Int) (s : Nat) : Int :=
  Int.sign a * (isqrt (a.natAbs * a.natAbs / s) : Int)

/-- The horizontal component `(int)(i * nx)` of the perpendicular offset in
`draw_thick_line`, where `nx = -dy / length`. -/
def perpOffX (x1 y1 x2 y2 i : Int) : Int :=
  truncDivSqrt (i * (-(y2 - y1)))
    (((x2 - x1) * (x2 - x1) + (y2 - y1) * (y2 - y1)).toNat)

/-- The vertical component `(int)(i * ny)` of the perpendicular offset in
`draw_thick_line`, where `ny = dx / length`. -/
def perpOffY (x1 y1 x2 y2 i : Int) : Int :=
  truncDivSqrt (i * (x2 - x1))
    (((x2 - x1) * (x2 - x1) + (y2 - y1) * (y2 - y1)).toNat)

/-- `draw_thick_line`: when the segment has zero length
(`length == 0`, i.e. both deltas are zero) draw the filled square of
`SDL_RenderDrawPoint`s with both offsets ranging over
`[-thickness/2, thickness/2]` (C truncating division); otherwise draw one
parallel `SDL_RenderDrawLine` per integer offset `i` in
`[-thickness/2, thickness/2]`, both endpoints translated by
`((int)(i*nx), (int)(i*ny))` along the unit perpendicular. -/
def draw_thick_line (x1 y1 x2 y2 thickness : Int) : List DrawOp :=
  let h := Int.tdiv thickness 2
  if x2 - x1 = 0 ∧ y2 - y1 = 0 then
    (intRange (-h) h).flatMap (fun i =>
      (intRange (-h) h).map (fun j => DrawOp.pixel (x1 + i) (y1 + j)))
  else
    (intRange (-h) h).map (fun i =>
      DrawOp.seg (x1 + perpOffX x1 y1 x2 y2 i) (y1 + perpOffY x1 y1 x2 y2 i)
        (x2 + perpOffX x1 y1 x2 y2 i) (y2 + perpOffY x1 y1 x2 y2 i))

/-- `draw_text`: nothing is drawn when the font is missing or the text is
empty; otherwise the white background rectangle matching the rendered
text's bounding box (supplied by the external text rasterizer, modelled by
`measure`) is filled first and the text is composited on top. -/
def draw_text (font : Bool) (measure : Str → Int × Int) (text : Str) (x y : Int) :
    List DrawOp :=
  if font = false then []
  else if text = [] then []
  else [DrawOp.rect x y (measure text).1 (measure text).2, DrawOp.textCopy text x y]

/-- `draw_point_with_label`: the filled circle for the point, then its label
`radius + 5` pixels to the right and `radius` pixels up. -/
def draw_point_with_label (font : Bool) (measure : Str → Int × Int)
    (p : ParsedPoint) (radius : Int) : List DrawOp :=
  draw_filled_circle p.x p.y radius ++
    draw_text font measure p.label (p.x + (radius + 5)) (p.y + (-radius))

/-- One iteration of the render loop of `main` (lines 511-530 of the C
file): clear, copy the image texture, draw every loaded line with
`draw_thick_line`, then draw every loaded point with
`draw_point_with_label`.  The two C `for` loops appear as folds that append
each element's draw calls. -/
def renderFrame (font : Bool) (measure : Str → Int × Int)
    (points : List ParsedPoint) (lines : List LineSeg) : List DrawOp :=
  let afterLines :=
    lines.foldl
      (fun acc l => acc ++ draw_thick_line l.x1 l.y1 l.x2 l.y2 DRAW_LINE_THICKNESS)
      [DrawOp.clear, DrawOp.image]
  points.foldl
    (fun acc p => acc ++ draw_point_with_label font measure p DRAW_POINT_RADIUS)
    afterLines

/-- A parse state whose point category is exactly at capacity (for the C7
witness). -/
def capacityState : ParseState :=
  ⟨List.replicate MAX_DRAW_ELEMENTS ⟨0, 0, []⟩, [], 0⟩

/-- The end-to-end script of spec §8: two points labelled `A` and `B`, then
`line(A,B)` — in the program's own accepted point syntax. -/
def resolvedLabelsScript : List Str :=
  [strOf "point(10,10,\"A\")", strOf "point(50,10,\"B\")", strOf "line(A,B)"]

/-! ### Helper lemmas -/

lemma isqrtFrom_sq_le (n m : Nat) : isqrtFrom n m * isqrtFrom n m ≤ n := by
  induction m with
  | zero => simp [isqrtFrom]
  | succ k ih =>
    rw [isqrtFrom]
    split
    · assumption
    · exact ih

lemma le_isqrtFrom (n m k : Nat) (hk : k ≤ m) (hsq : k * k ≤ n) :
    k ≤ isqrtFrom n m := by
  induction m with
  | zero => omega
  | succ j ih =>
    rw [isqrtFrom]
    split
    · exact hk
    · rename_i hfail
      rcases Nat.lt_or_ge k (j + 1) with h | h
      · exact ih (by omega)
      · have hkj : k = j + 1 := by omega
        subst hkj
        exact absurd hsq hfail

/-- The scan agrees with Mathlib's `Nat.sqrt`. -/
lemma isqrt_eq_sqrt (n : Nat) : isqrt n = Nat.sqrt n := by
  refine Nat.le_antisymm ?_ ?_
  · exact Nat.le_sqrt.mpr (isqrtFrom_sq_le n n)
  · exact le_isqrtFrom n n (Nat.sqrt n) (Nat.sqrt_le_self n)
      (by simpa [pow_two] using Nat.sqrt_le' n)

lemma mem_intRange {lo hi a : Int} : a ∈ intRange lo hi ↔ lo ≤ a ∧ a ≤ hi := by
  simp only [intRange, List.mem_map, List.mem_range]
  constructor
  · rintro ⟨k, hk, rfl⟩
    omega
  · rintro ⟨h1, h2⟩
    exact ⟨(a - lo).toNat, by omega, by omega⟩

lemma length_intRange (lo hi : Int) :
    (intRange lo hi).length = (hi + 1 - lo).toNat := by
  simp [intRange]

lemma sum_map_const {α : Type} (l : List α) (n : Nat) :
    (l.map (fun _ => n)).sum = l.length * n := by
  induction l with
  | nil => simp
  | cons x xs ih => simp [ih, Nat.succ_mul, Nat.add_comm]

lemma foldl_append_eq_flatMap {α β : Type} (l : List α) (f : α → List β) :
    ∀ acc : List β, l.foldl (fun a x => a ++ f x) acc = acc ++ l.flatMap f := by
  induction l with
  | nil => simp
  | cons x xs ih => intro acc; simp [ih]

lemma startsWith_append (p r : Str) : startsWith p (p ++ r) = true := by
  induction p with
  | nil => rfl
  | cons c cs ih => simp [startsWith, ih]

lemma strstrAfter_of_prefix (c : Char) (ps r : Str) :
    strstrAfter (c :: ps) ((c :: ps) ++ r) = some r := by
  have h := startsWith_append (c :: ps) r
  rw [show ((c :: ps) ++ r : Str) = c :: (ps ++ r) from rfl] at h ⊢
  rw [strstrAfter, h]
  simp only [if_true]
  congr 1
  simp [List.drop_left (c :: ps) r]

lemma splitFirst_of_not_mem (c : Char) (pre post : Str) (h : c ∉ pre) :
    splitFirst c (pre ++ c :: post) = some (pre, post) := by
  induction pre with
  | nil => simp [splitFirst]
  | cons d ds ih =>
    have hd : d ≠ c := fun hdc => h (by simp [hdc])
    have hds : c ∉ ds := fun hm => h (by simp [hm])
    simp [splitFirst, hd, ih hds]

lemma scanInt_cons_of_nonnumeric (c : Char) (rest : Str)
    (h1 : isSpaceChar c = false) (h2 : c.isDigit = false)
    (h3 : c ≠ '-') (h4 : c ≠ '+') : scanInt (c :: rest) = none := by
  simp [scanInt, dropSpaces, h1, scanIntCore, h3, h4, readDigitsOpt, h2]

lemma classifyLine_eq_ignored_iff (s : Str) :
    classifyLine s = .ignored ↔ s = [] ∨ ∃ cs, s = '#' :: cs := by
  cases s with
  | nil => simp [classifyLine]
  | cons c cs =>
    by_cases hc : c = '#'
    · subst hc
      simp [classifyLine]
    · simp only [classifyLine, if_neg hc]
      constructor
      · intro h
        exfalso
        rcases hp : strstrAfter pointPat (c :: cs) with _ | rest
        · rcases hl : strstrAfter linePat (c :: cs) with _ | rest
          · simp [hp, hl] at h
          · rcases hlp : parseLineParams rest with _ | ⟨a, b, c', d⟩
            · simp [hp, hl, hlp] at h
            · simp [hp, hl, hlp] at h
        · rcases hpp : parsePointParams rest with _ | ⟨x, y, l⟩
          · simp [hp, hpp] at h
          · simp [hp, hpp] at h
      · rintro (h | ⟨cs', h⟩) <;> simp_all

-- one parse step on a state never removes elements and only branches on the
-- scene part of the state, so equal scenes evolve to equal scenes
lemma processLine_scene_congr (m : Nat) (s : Str) {st st' : ParseState}
    (hp : st.points = st'.points) (hl : st.lines = st'.lines) :
    (processLine m st s).points = (processLine m st' s).points ∧
      (processLine m st s).lines = (processLine m st' s).lines := by
  unfold processLine
  cases classifyLine s with
  | ignored => exact ⟨hp, hl⟩
  | point x y l =>
    rw [hp]
    by_cases h : st'.points.length < m <;> simp [h, hp, hl]
  | lineSeg a b c d =>
    rw [hl]
    by_cases h : st'.lines.length < m <;> simp [h, hp, hl]
  | diag k => exact ⟨hp, hl⟩

lemma parseFrom_scene_congr (m : Nat) (ls : List Str) :
    ∀ {st st' : ParseState}, st.points = st'.points → st.lines = st'.lines →
      (parseFrom m st ls).points = (parseFrom m st' ls).points ∧
        (parseFrom m st ls).lines = (parseFrom m st' ls).lines := by
  induction ls with
  | nil => intro st st' hp hl; exact ⟨hp, hl⟩
  | cons s rest ih =>
    intro st st' hp hl
    have h := processLine_scene_congr m s hp hl
    exact ih h.1 h.2

lemma parseFrom_append (m : Nat) (st : ParseState) (l1 l2 : List Str) :
    parseFrom m st (l1 ++ l2) = parseFrom m (parseFrom m st l1) l2 :=
  List.foldl_append _ _ _ _

lemma processLine_points_le (m : Nat) (st : ParseState) (s : Str)
    (h : st.points.length ≤ m) : (processLine m st s).points.length ≤ m := by
  unfold processLine
  cases classifyLine s with
  | ignored => exact h
  | point x y l =>
    by_cases hlt : st.points.length < m <;> simp [hlt, h]
    omega
  | lineSeg a b c d =>
    by_cases hlt : st.lines.length < m <;> simp [hlt, h]
  | diag k => exact h

lemma processLine_lines_le (m : Nat) (st : ParseState) (s : Str)
    (h : st.lines.length ≤ m) : (processLine m st s).lines.length ≤ m := by
  unfold processLine
  cases classifyLine s with
  | ignored => exact h
  | point x y l =>
    by_cases hlt : st.points.length < m <;> simp [hlt, h]
  | lineSeg a b c d =>
    by_cases hlt : st.lines.length < m <;> simp [hlt, h]
    omega
  | diag k => exact h

lemma parseFrom_points_le (m : Nat) (ls : List Str) :
    ∀ st : ParseState, st.points.length ≤ m →
      (parseFrom m st ls).points.length ≤ m := by
  induction ls with
  | nil => intro st h; exact h
  | cons s rest ih =>
    intro st h
    exact ih _ (processLine_points_le m st s h)

lemma parseFrom_lines_le (m : Nat) (ls : List Str) :
    ∀ st : ParseState, st.lines.length ≤ m →
      (parseFrom m st ls).lines.length ≤ m := by
  induction ls with
  | nil => intro st h; exact h
  | cons s rest ih =>
    intro st h
    exact ih _ (processLine_lines_le m st s h)

lemma isqrt_div_le (n s : Nat) (hs : 0 < s) :
    isqrt (n * n / s) * isqrt (n * n / s) * s ≤ n * n :=
  (Nat.le_div_iff_mul_le hs).mp (isqrtFrom_sq_le _ _)

lemma lt_succ_isqrt_div (n s : Nat) (hs : 0 < s) :
    n * n < (isqrt (n * n / s) + 1) * (isqrt (n * n / s) + 1) * s := by
  refine (Nat.div_lt_iff_lt_mul hs).mp ?_
  simpa [isqrt_eq_sqrt, Nat.succ_eq_add_one] using Nat.lt_succ_sqrt (n * n / s)

/-- `truncDivSqrt a s` really is the truncation toward zero of `a / sqrt s`:
its square times `s` is at most `a²`, one more in magnitude would overshoot,
and it has the sign of `a`. -/
lemma truncDivSqrt_spec (a : Int) (s : Nat) (hs : 0 < s) :
    truncDivSqrt a s * truncDivSqrt a s * (s : Int) ≤ a * a ∧
      a * a < (((truncDivSqrt a s).natAbs + 1 : Nat) : Int) *
        (((truncDivSqrt a s).natAbs + 1 : Nat) : Int) * (s : Int) ∧
      0 ≤ truncDivSqrt a s * a := by
  have key : ∀ n : Nat,
      (isqrt (n * n / s) : Int) * (isqrt (n * n / s) : Int) * (s : Int) ≤
          (n : Int) * (n : Int) ∧
        (n : Int) * (n : Int) < ((isqrt (n * n / s) + 1 : Nat) : Int) *
          ((isqrt (n * n / s) + 1 : Nat) : Int) * (s : Int) := by
    intro n
    constructor
    · exact_mod_cast isqrt_div_le n s hs
    · exact_mod_cast lt_succ_isqrt_div n s hs
  rcases lt_trichotomy a 0 with hneg | rfl | hpos
  · have hsgn : a.sign = -1 := Int.sign_eq_neg_one_of_neg hneg
    have hn : ((a.natAbs : Nat) : Int) = -a := Int.ofNat_natAbs_of_nonpos (le_of_lt hneg)
    have hu : truncDivSqrt a s = -(isqrt (a.natAbs * a.natAbs / s) : Int) := by
      simp only [truncDivSqrt, hsgn]
      ring
    have hk := key a.natAbs
    have hna : ((a.natAbs : Nat) : Int) * ((a.natAbs : Nat) : Int) = a * a := by
      rw [hn]; ring
    rw [hna] at hk
    rw [hu]
    refine ⟨?_, ?_, ?_⟩
    · have h2 : -(isqrt (a.natAbs * a.natAbs / s) : Int) *
          -(isqrt (a.natAbs * a.natAbs / s) : Int) =
          (isqrt (a.natAbs * a.natAbs / s) : Int) *
            (isqrt (a.natAbs * a.natAbs / s) : Int) := by ring
      rw [h2]
      exact hk.1
    · rw [Int.natAbs_neg, Int.natAbs_ofNat]
      exact hk.2
    · have h1 : (0 : Int) ≤ (isqrt (a.natAbs * a.natAbs / s) : Int) *
          ((a.natAbs : Nat) : Int) := by positivity
      calc (0 : Int) ≤ (isqrt (a.natAbs * a.natAbs / s) : Int) *
            ((a.natAbs : Nat) : Int) := h1
        _ = -(isqrt (a.natAbs * a.natAbs / s) : Int) * -((a.natAbs : Nat) : Int) := by
            ring
        _ = -(isqrt (a.natAbs * a.natAbs / s) : Int) * a := by rw [hn]; ring
  · refine ⟨by simp [truncDivSqrt], ?_, by simp [truncDivSqrt]⟩
    have h0 : truncDivSqrt 0 s = 0 := by simp [truncDivSqrt]
    rw [h0]
    simp
    exact_mod_cast hs
  · have hsgn : a.sign = 1 := Int.sign_eq_one_of_pos hpos
    have hn : ((a.natAbs : Nat) : Int) = a := Int.natAbs_of_nonneg (le_of_lt hpos)
    have hu : truncDivSqrt a s = (isqrt (a.natAbs * a.natAbs / s) : Int) := by
      simp only [truncDivSqrt, hsgn]
      ring
    have hk := key a.natAbs
    have hna : ((a.natAbs : Nat) : Int) * ((a.natAbs : Nat) : Int) = a * a := by
      rw [hn]
    rw [hna] at hk
    rw [hu]
    refine ⟨hk.1, ?_, ?_⟩
    · rw [Int.natAbs_ofNat]
      exact hk.2
    · rw [← hn]
      positivity

-- a line that only produces a diagnostic leaves the scene of the whole
-- parse unchanged, wherever it sits in the file
lemma parseFrom_diag_scene (m : Nat) (st : ParseState) (s : Str) (k : DiagKind)
    (h : classifyLine s = .diag k) (pre post : List Str) :
    (parseFrom m st (pre ++ s :: post)).points =
        (parseFrom m st (pre ++ post)).points ∧
      (parseFrom m st (pre ++ s :: post)).lines =
        (parseFrom m st (pre ++ post)).lines := by
  have e0 : pre ++ s :: post = (pre ++ [s]) ++ post := by simp
  have hL : parseFrom m st ((pre ++ [s]) ++ post) =
      parseFrom m (parseFrom m (parseFrom m st pre) [s]) post := by
    rw [parseFrom_append m st (pre ++ [s]) post, parseFrom_append m st pre [s]]
  have hR : parseFrom m st (pre ++ post) =
      parseFrom m (parseFrom m st pre) post :=
    parseFrom_append m st pre post
  have hstep : parseFrom m (parseFrom m st pre) [s] =
      { parseFrom m st pre with diags := (parseFrom m st pre).diags + 1 } := by
    show processLine m (parseFrom m st pre) s = _
    simp [processLine, h]
  rw [e0, hL, hR, hstep]
  exact parseFrom_scene_congr m post (by simp) (by simp)

/-! ### Claims -/

/-- Claim C3, counterexample: the claim says a line whose first
non-whitespace character is `#` is ignored with no diagnostic even when the
`#` is preceded by leading whitespace; but on the input `" #c"` the parser
emits an `Unrecognized line format` diagnostic, because the C code only
tests `line_buffer[0] == '#'`. -/
theorem c3_counterexample :
    classifyLine (strOf " #c") = .diag .unrecognized ∧
      processLine MAX_DRAW_ELEMENTS ⟨[], [], 0⟩ (strOf " #c") = ⟨[], [], 1⟩ := by
  decide

/-- Claim C3, amended: a parse step leaves the state completely unchanged
(no scene element and no diagnostic) exactly when the line is empty or its
first character — not its first non-whitespace character — is `#`. -/
theorem c3_amended (m : Nat) (st : ParseState) (s : Str) :
    processLine m st s = st ↔ s = [] ∨ ∃ cs, s = '#' :: cs := by
  rw [← classifyLine_eq_ignored_iff]
  constructor
  · intro h
    cases hcl : classifyLine s with
    | ignored => rfl
    | point x y l =>
      exfalso
      simp only [processLine, hcl] at h
      by_cases hlt : st.points.length < m
      · rw [if_pos hlt] at h
        have := congrArg (fun t => t.points.length) h
        simp at this
      · rw [if_neg hlt] at h
        have := congrArg ParseState.diags h
        simp at this
    | lineSeg a b c d =>
      exfalso
      simp only [processLine, hcl] at h
      by_cases hlt : st.lines.length < m
      · rw [if_pos hlt] at h
        have := congrArg (fun t => t.lines.length) h
        simp at this
      · rw [if_neg hlt] at h
        have := congrArg ParseState.diags h
        simp at this
    | diag k =>
      exfalso
      simp only [processLine, hcl] at h
      have := congrArg ParseState.diags h
      simp at this
  · intro h
    simp [processLine, h]

/-- Claim C7: the point count and the line count each never exceed the same
fixed maximum `MAX_DRAW_ELEMENTS`, independently per category; a point or
line instruction arriving when its own category is at capacity only adds a
diagnostic, and parsing continues with the subsequent instructions. -/
theorem c7_capacity :
    (∀ ls : List Str,
      (parse_drawing_file ls).points.length ≤ MAX_DRAW_ELEMENTS ∧
        (parse_drawing_file ls).lines.length ≤ MAX_DRAW_ELEMENTS) ∧
      (∀ (st : ParseState) (s : Str) (x y : Int) (l : Str) (rest : List Str),
        classifyLine s = .point x y l → ¬st.points.length < MAX_DRAW_ELEMENTS →
          parseFrom MAX_DRAW_ELEMENTS st (s :: rest) =
            parseFrom MAX_DRAW_ELEMENTS { st with diags := st.diags + 1 } rest) ∧
      (∀ (st : ParseState) (s : Str) (a b c d : Int) (rest : List Str),
        classifyLine s = .lineSeg a b c d → ¬st.lines.length < MAX_DRAW_ELEMENTS →
          parseFrom MAX_DRAW_ELEMENTS st (s :: rest) =
            parseFrom MAX_DRAW_ELEMENTS { st with diags := st.diags + 1 } rest) := by
  refine ⟨?_, ?_, ?_⟩
  · intro ls
    unfold parse_drawing_file
    exact ⟨parseFrom_points_le _ _ _ (by simp), parseFrom_lines_le _ _ _ (by simp)⟩
  · intro st s x y l rest hcl hcap
    show parseFrom MAX_DRAW_ELEMENTS (processLine MAX_DRAW_ELEMENTS st s) rest = _
    have : processLine MAX_DRAW_ELEMENTS st s = { st with diags := st.diags + 1 } := by
      simp [processLine, hcl, hcap]
    rw [this]
  · intro st s a b c d rest hcl hcap
    show parseFrom MAX_DRAW_ELEMENTS (processLine MAX_DRAW_ELEMENTS st s) rest = _
    have : processLine MAX_DRAW_ELEMENTS st s = { st with diags := st.diags + 1 } := by
      simp [processLine, hcl, hcap]
    rw [this]

set_option maxRecDepth 20000 in
/-- Claim C7, witness: a concrete valid point instruction arriving at a
full point store is skipped with one diagnostic and parsing continues. -/
theorem c7_capacity_witness :
    parseFrom MAX_DRAW_ELEMENTS capacityState [strOf "point(1,2,\"Z\")"] =
      { capacityState with diags := capacityState.diags + 1 } :=
  c7_capacity.2.1 capacityState (strOf "point(1,2,\"Z\")") 1 2 ['Z'] []
    (by decide) (by decide)

/-- Claim C8: a line that produces a diagnostic (pattern mismatch, failed
structural or numeric parsing) is dropped — the scene is unchanged, the
diagnostic count goes up by one — and never prevents later lines from being
processed: removing the malformed line from the script leaves the parsed
scene identical, and parsing any script decomposes through every prefix, so
every input line is processed to the end of the text. -/
theorem c8_malformed_recovery (m : Nat) (st : ParseState) (s : Str)
    (k : DiagKind) (h : classifyLine s = .diag k) :
    processLine m st s = { st with diags := st.diags + 1 } ∧
      (∀ pre post : List Str,
        (parseFrom m st (pre ++ s :: post)).points =
            (parseFrom m st (pre ++ post)).points ∧
          (parseFrom m st (pre ++ s :: post)).lines =
            (parseFrom m st (pre ++ post)).lines) ∧
      (∀ (l1 l2 : List Str) (st2 : ParseState),
        parseFrom m st2 (l1 ++ l2) = parseFrom m (parseFrom m st2 l1) l2) := by
  refine ⟨by simp [processLine, h], ?_, ?_⟩
  · intro pre post
    exact parseFrom_diag_scene m st s k h pre post
  · intro l1 l2 st2
    exact parseFrom_append m st2 l1 l2

/-- Claim C8, witness: the unrecognized line `"hello"` adds one diagnostic
and nothing else. -/
theorem c8_malformed_recovery_witness :
    processLine MAX_DRAW_ELEMENTS ⟨[], [], 0⟩ (strOf "hello") = ⟨[], [], 1⟩ :=
  (c8_malformed_recovery MAX_DRAW_ELEMENTS ⟨[], [], 0⟩ (strOf "hello")
    .unrecognized (by decide)).1

/-- Claim C9: each rendered frame emits, after the clear and the image
copy, first the draw calls of every loaded line and then the draw calls of
every loaded point (its filled circle followed, when a label is present, by
its label), so markers and labels sit atop connecting strokes. -/
theorem c9_draw_order (font : Bool) (measure : Str → Int × Int)
    (points : List ParsedPoint) (lines : List LineSeg) :
    renderFrame font measure points lines =
      [DrawOp.clear, DrawOp.image] ++
        lines.flatMap
          (fun l => draw_thick_line l.x1 l.y1 l.x2 l.y2 DRAW_LINE_THICKNESS) ++
        points.flatMap
          (fun p => draw_point_with_label font measure p DRAW_POINT_RADIUS) := by
  unfold renderFrame
  rw [foldl_append_eq_flatMap, foldl_append_eq_flatMap]

/-- Claim C1, counterexample: the claim describes label resolution — the
parser is said to look `line(a,b)` labels up in a symbol table populated
from all point instructions and accept the line exactly when both resolve.
On a script that defines points labelled `A` and `B` and then writes
`line(A,B)`, the code drops the line with a `Failed to parse line format`
diagnostic: the scene holds both points, no line, one diagnostic.  There is
no symbol table and no label lookup anywhere in `parse_drawing_file`. -/
theorem c1_counterexample :
    (parse_drawing_file resolvedLabelsScript).points =
        [⟨10, 10, ['A']⟩, ⟨50, 10, ['B']⟩] ∧
      (parse_drawing_file resolvedLabelsScript).lines = [] ∧
      (parse_drawing_file resolvedLabelsScript).diags = 1 := by
  decide

/-- Claim C1, amended: `line(...)` instructions carry four integer
coordinates, not labels, and are never resolved against the points: a
`line(a,b)` whose first argument starts with a non-numeric character (any
label) is dropped with a `Failed to parse line format` diagnostic — whether
or not points with those labels exist — and leaves the parsed scene of any
script unchanged. -/
theorem c1_amended (lbl1 lbl2 : Str) (c : Char) (r1 : Str)
    (h1 : lbl1 = c :: r1)
    (hsp : isSpaceChar c = false) (hdig : c.isDigit = false)
    (hminus : c ≠ '-') (hplus : c ≠ '+')
    (hp1 : ')' ∉ lbl1) (hp2 : ')' ∉ lbl2)
    (hnp : strstrAfter pointPat (linePat ++ (lbl1 ++ ',' :: lbl2 ++ [')'])) = none) :
    classifyLine (linePat ++ (lbl1 ++ ',' :: lbl2 ++ [')'])) = .diag .lineFail ∧
      ∀ (m : Nat) (st : ParseState) (pre post : List Str),
        (parseFrom m st (pre ++ (linePat ++ (lbl1 ++ ',' :: lbl2 ++ [')'])) :: post)).points =
            (parseFrom m st (pre ++ post)).points ∧
          (parseFrom m st (pre ++ (linePat ++ (lbl1 ++ ',' :: lbl2 ++ [')'])) :: post)).lines =
            (parseFrom m st (pre ++ post)).lines := by
  subst h1
  have hmain : classifyLine (linePat ++ ((c :: r1) ++ ',' :: lbl2 ++ [')'])) =
      .diag .lineFail := by
    have hnp' : strstrAfter pointPat
        ('l' :: (['i', 'n', 'e', '('] ++ ((c :: r1) ++ ',' :: lbl2 ++ [')']))) = none := hnp
    have hlp' : strstrAfter linePat
        ('l' :: (['i', 'n', 'e', '('] ++ ((c :: r1) ++ ',' :: lbl2 ++ [')']))) =
        some ((c :: r1) ++ ',' :: lbl2 ++ [')']) :=
      strstrAfter_of_prefix 'l' ['i', 'n', 'e', '('] ((c :: r1) ++ ',' :: lbl2 ++ [')'])
    have hnmem : ')' ∉ (c :: r1) ++ ',' :: lbl2 := by
      intro hm
      rcases List.mem_append.mp hm with hm1 | hm2
      · exact hp1 hm1
      · rcases List.mem_cons.mp hm2 with he | hm3
        · exact absurd he (by decide)
        · exact hp2 hm3
    have hsplit : splitFirst ')' ((c :: r1) ++ ',' :: lbl2 ++ [')']) =
        some ((c :: r1) ++ ',' :: lbl2, []) := by
      have e : (c :: r1) ++ ',' :: lbl2 ++ [')'] =
          ((c :: r1) ++ ',' :: lbl2) ++ ')' :: [] := by simp
      rw [e]
      exact splitFirst_of_not_mem ')' ((c :: r1) ++ ',' :: lbl2) [] hnmem
    have hscan : scanInt ((c :: r1) ++ ',' :: lbl2) = none :=
      scanInt_cons_of_nonnumeric c (r1 ++ ',' :: lbl2) hsp hdig hminus hplus
    have hlparams : parseLineParams ((c :: r1) ++ ',' :: lbl2 ++ [')']) = none := by
      unfold parseLineParams
      rw [hsplit]
      show scan4 ((c :: r1) ++ ',' :: lbl2) = none
      unfold scan4
      rw [hscan]
      rfl
    show classifyLine
        ('l' :: (['i', 'n', 'e', '('] ++ ((c :: r1) ++ ',' :: lbl2 ++ [')']))) = _
    rw [classifyLine]
    rw [if_neg (by decide : ¬('l' = '#'))]
    simp only [hnp', hlp', hlparams]
  refine ⟨hmain, ?_⟩
  intro m st pre post
  exact parseFrom_diag_scene m st (linePat ++ ((c :: r1) ++ ',' :: lbl2 ++ [')']))
    .lineFail hmain pre post

/-- Claim C1, witness for the amended claim: `line(A,B)` is dropped with a
line-format diagnostic. -/
theorem c1_amended_witness :
    classifyLine (linePat ++ (['A'] ++ ',' :: ['B'] ++ [')'])) = .diag .lineFail :=
  (c1_amended ['A'] ['B'] 'A' [] (by decide) (by decide) (by decide) (by decide)
    (by decide) (by decide) (by decide) (by decide)).1

/-- Claim C2, counterexample: the claim says the stored label is the
trimmed unquoted text between the second comma and the closing parenthesis,
and that a label empty after trimming is rejected.  The code instead
requires double quotes — `point(1,2,A)` is rejected with a point-format
diagnostic although the claim accepts it with label `A` — and accepts
`point(1,2,"")`, storing the empty label. -/
theorem c2_counterexample :
    classifyLine (strOf "point(1,2,A)") = .diag .pointFail ∧
      classifyLine (strOf "point(1,2,\"\")") = .point 1 2 [] := by
  decide

/-- Claim C2, amended: for an accepted point the stored label is the
verbatim text between the first pair of double quotes after the second
comma — quotes stripped, no whitespace trimming — and an empty quoted label
is accepted; a point whose label is not quoted is rejected with a
diagnostic (see the counterexample). -/
theorem c2_amended (xs ys lbl : Str) (x y : Int) (rx ry : Str)
    (hx : scanInt xs = some (x, rx)) (hy : scanInt ys = some (y, ry))
    (hxc : ',' ∉ xs) (hxp : ')' ∉ xs)
    (hyc : ',' ∉ ys) (hyp2 : ')' ∉ ys)
    (hlq : '"' ∉ lbl) (hlp : ')' ∉ lbl) :
    classifyLine (pointPat ++
        (xs ++ (',' :: (ys ++ (',' :: ('"' :: (lbl ++ ['"', ')']))))))) =
      .point x y lbl := by
  have hpp' : strstrAfter pointPat
      ('p' :: (['o', 'i', 'n', 't', '('] ++
        (xs ++ (',' :: (ys ++ (',' :: ('"' :: (lbl ++ ['"', ')'])))))))) =
      some (xs ++ (',' :: (ys ++ (',' :: ('"' :: (lbl ++ ['"', ')'])))))) :=
    strstrAfter_of_prefix 'p' ['o', 'i', 'n', 't', '(']
      (xs ++ (',' :: (ys ++ (',' :: ('"' :: (lbl ++ ['"', ')']))))))
  have hnmem : ')' ∉ xs ++ (',' :: (ys ++ (',' :: ('"' :: (lbl ++ ['"']))))) := by
    intro hm
    rcases List.mem_append.mp hm with h | h
    · exact hxp h
    · rcases List.mem_cons.mp h with h | h
      · exact absurd h (by decide)
      · rcases List.mem_append.mp h with h | h
        · exact hyp2 h
        · rcases List.mem_cons.mp h with h | h
          · exact absurd h (by decide)
          · rcases List.mem_cons.mp h with h | h
            · exact absurd h (by decide)
            · rcases List.mem_append.mp h with h | h
              · exact hlp h
              · rcases List.mem_singleton.mp h with h
                exact absurd h (by decide)
  have hsplitP : splitFirst ')'
      (xs ++ (',' :: (ys ++ (',' :: ('"' :: (lbl ++ ['"', ')'])))))) =
      some (xs ++ (',' :: (ys ++ (',' :: ('"' :: (lbl ++ ['"']))))), []) := by
    have e : xs ++ (',' :: (ys ++ (',' :: ('"' :: (lbl ++ ['"', ')']))))) =
        (xs ++ (',' :: (ys ++ (',' :: ('"' :: (lbl ++ ['"'])))))) ++ ')' :: [] := by
      simp
    rw [e]
    exact splitFirst_of_not_mem ')'
      (xs ++ (',' :: (ys ++ (',' :: ('"' :: (lbl ++ ['"'])))))) [] hnmem
  have hsplit1 : splitFirst ','
      (xs ++ (',' :: (ys ++ (',' :: ('"' :: (lbl ++ ['"'])))))) =
      some (xs, ys ++ (',' :: ('"' :: (lbl ++ ['"'])))) :=
    splitFirst_of_not_mem ',' xs (ys ++ (',' :: ('"' :: (lbl ++ ['"'])))) hxc
  have hsplit2 : splitFirst ',' (ys ++ (',' :: ('"' :: (lbl ++ ['"'])))) =
      some (ys, '"' :: (lbl ++ ['"'])) :=
    splitFirst_of_not_mem ',' ys ('"' :: (lbl ++ ['"'])) hyc
  have hsplitQ : splitFirst '"' ('"' :: (lbl ++ ['"'])) = some ([], lbl ++ ['"']) := by
    simp [splitFirst]
  have hsplitL : splitFirst '"' (lbl ++ ['"']) = some (lbl, []) :=
    splitFirst_of_not_mem '"' lbl [] hlq
  have hne : (lbl ++ ['"'] = []) = False := by simp
  have hpparams :
      parsePointParams (xs ++ (',' :: (ys ++ (',' :: ('"' :: (lbl ++ ['"', ')'])))))) =
        some (x, y, lbl) := by
    simp [parsePointParams, hsplitP, hsplit1, hsplit2, hsplitQ, hsplitL, hx, hy, hne]
  show classifyLine
      ('p' :: (['o', 'i', 'n', 't', '('] ++
        (xs ++ (',' :: (ys ++ (',' :: ('"' :: (lbl ++ ['"', ')'])))))))) = _
  rw [classifyLine, if_neg (by decide : ¬('p' = '#'))]
  simp only [hpp', hpparams]

/-- Claim C2, witness for the amended claim: `point( -3,7," A ")` is
accepted and stores the label `" A "` verbatim, untrimmed. -/
theorem c2_amended_witness :
    classifyLine (pointPat ++
        (strOf " -3" ++ (',' :: (strOf "7" ++
          (',' :: ('"' :: (strOf " A " ++ ['"', ')']))))))) =
      .point (-3) 7 (strOf " A ") :=
  c2_amended (strOf " -3") (strOf "7") (strOf " A ") (-3) 7 [] []
    (by decide) (by decide) (by decide) (by decide) (by decide) (by decide)
    (by decide) (by decide)

/-- Claim C10, counterexample: the claim quantifies over every input line
containing the substring `point(`; but a line whose first character is `#`
is skipped before the `strstr` tests run, so `#point(bad` — which contains
`point(` and whose point parsing would fail — is ignored with no
diagnostic, not "skipped with a diagnostic". -/
theorem c10_counterexample :
    (strstrAfter pointPat (strOf "#point(bad")).isSome = true ∧
      classifyLine (strOf "#point(bad") = .ignored ∧
      processLine MAX_DRAW_ELEMENTS ⟨[], [], 0⟩ (strOf "#point(bad") =
        ⟨[], [], 0⟩ := by
  decide

/-- Claim C10, amended: for every non-ignored line (nonempty, first
character not `#`) that contains the substring `point(` anywhere, the
parser commits to the point branch: the outcome is either an accepted point
or the point-format diagnostic — never a line instruction — and when point
parsing fails the outcome is exactly the point-format diagnostic, even if
the line also contains `line(`. -/
theorem c10_amended (s : Str) (c : Char) (cs : Str)
    (hs : s = c :: cs) (hc : c ≠ '#') (rest : Str)
    (hfind : strstrAfter pointPat s = some rest) :
    ((∃ x y l, classifyLine s = .point x y l) ∨
        classifyLine s = .diag .pointFail) ∧
      (∀ a b c' d, classifyLine s ≠ .lineSeg a b c' d) ∧
      (parsePointParams rest = none → classifyLine s = .diag .pointFail) := by
  subst hs
  rw [classifyLine]
  rw [if_neg hc]
  rcases hpp : parsePointParams rest with _ | ⟨xv, yv, lv⟩
  · simp [hfind, hpp]
  · simp [hfind, hpp]

/-- Claim C10, witness for the amended claim: `point(x) line(1,2,3,4)`
contains both patterns; point parsing fails, the line is diagnosed as a
malformed point, and the well-formed `line(1,2,3,4)` inside it is never
parsed. -/
theorem c10_amended_witness :
    classifyLine (strOf "point(x) line(1,2,3,4)") = .diag .pointFail :=
  (c10_amended (strOf "point(x) line(1,2,3,4)") 'p'
      (strOf "oint(x) line(1,2,3,4)") (by decide) (by decide)
      (strOf "x) line(1,2,3,4)") (by decide)).2.2 (by decide)

/-- Claim C4, counterexample: the claim says a zero-length segment is drawn
as a filled square of side `t` for every thickness `t`; at `t = 4` the loop
bounds `[-4/2, 4/2] = [-2, 2]` give a square of side 5 with 25 pixels, not
`4 * 4 = 16`. -/
theorem c4_counterexample :
    (draw_thick_line 0 0 0 0 4).length = 25 ∧
      (draw_thick_line 0 0 0 0 4).length ≠ 4 * 4 := by
  decide

/-- Claim C4, amended: for every zero-length segment and every thickness
`t ≥ 0`, the stroke draws exactly the filled square of pixels obtained by
looping both offset axes over `[-t/2, t/2]` (truncating division) — a
square of side `2*(t/2) + 1` centred at the point, which equals `t` only
for odd `t` — and the draw is never empty. -/
theorem c4_amended (x y t : Int) (ht : 0 ≤ t) :
    (∀ op, op ∈ draw_thick_line x y x y t ↔
      ∃ i j : Int, -(Int.tdiv t 2) ≤ i ∧ i ≤ Int.tdiv t 2 ∧
        -(Int.tdiv t 2) ≤ j ∧ j ≤ Int.tdiv t 2 ∧
        op = DrawOp.pixel (x + i) (y + j)) ∧
      (draw_thick_line x y x y t).length =
        (2 * Int.tdiv t 2 + 1).toNat * (2 * Int.tdiv t 2 + 1).toNat ∧
      draw_thick_line x y x y t ≠ [] := by
  have hzl : draw_thick_line x y x y t =
      (intRange (-(Int.tdiv t 2)) (Int.tdiv t 2)).flatMap (fun i =>
        (intRange (-(Int.tdiv t 2)) (Int.tdiv t 2)).map
          (fun j => DrawOp.pixel (x + i) (y + j))) := by
    simp [draw_thick_line]
  have hmem : ∀ op, op ∈ draw_thick_line x y x y t ↔
      ∃ i j : Int, -(Int.tdiv t 2) ≤ i ∧ i ≤ Int.tdiv t 2 ∧
        -(Int.tdiv t 2) ≤ j ∧ j ≤ Int.tdiv t 2 ∧
        op = DrawOp.pixel (x + i) (y + j) := by
    intro op
    rw [hzl]
    simp only [List.mem_flatMap, List.mem_map, mem_intRange]
    constructor
    · rintro ⟨i, ⟨hi1, hi2⟩, j, ⟨hj1, hj2⟩, rfl⟩
      exact ⟨i, j, hi1, hi2, hj1, hj2, rfl⟩
    · rintro ⟨i, j, hi1, hi2, hj1, hj2, rfl⟩
      exact ⟨i, ⟨hi1, hi2⟩, j, ⟨hj1, hj2⟩, rfl⟩
  have hlen : (draw_thick_line x y x y t).length =
      (2 * Int.tdiv t 2 + 1).toNat * (2 * Int.tdiv t 2 + 1).toNat := by
    rw [hzl, List.length_flatMap]
    have hmapc : List.map (List.length ∘ fun i =>
        (intRange (-(Int.tdiv t 2)) (Int.tdiv t 2)).map
          (fun j => DrawOp.pixel (x + i) (y + j)))
        (intRange (-(Int.tdiv t 2)) (Int.tdiv t 2)) =
        List.map (fun _ => (2 * Int.tdiv t 2 + 1).toNat)
          (intRange (-(Int.tdiv t 2)) (Int.tdiv t 2)) := by
      apply List.map_congr_left
      intro a _
      simp only [Function.comp_apply, List.length_map, length_intRange]
      congr 1
      omega
    rw [hmapc, sum_map_const, length_intRange]
    have : (Int.tdiv t 2 + 1 - -(Int.tdiv t 2)).toNat =
        (2 * Int.tdiv t 2 + 1).toNat := by omega
    rw [this]
  have hk : 0 ≤ Int.tdiv t 2 := Int.tdiv_nonneg ht (by norm_num)
  have h0 : DrawOp.pixel (x + 0) (y + 0) ∈ draw_thick_line x y x y t :=
    (hmem _).mpr ⟨0, 0, by omega, by omega, by omega, by omega, rfl⟩
  refine ⟨hmem, hlen, ?_⟩
  intro hempty
  rw [hempty] at h0
  exact absurd h0 (List.not_mem_nil _)

/-- Claim C4, witness for the amended claim: with the thickness actually
used by the program (`t = 5`, odd) the zero-length stroke draws the 25
pixels of a 5-by-5 square and is not empty. -/
theorem c4_amended_witness :
    (draw_thick_line 0 0 0 0 5).length =
        (2 * Int.tdiv 5 2 + 1).toNat * (2 * Int.tdiv 5 2 + 1).toNat ∧
      draw_thick_line 0 0 0 0 5 ≠ [] :=
  ⟨(c4_amended 0 0 5 (by decide)).2.1, (c4_amended 0 0 5 (by decide)).2.2⟩

/-- Claim C5: for every centre and radius `r ≥ 0` the filled circle draws,
for each row offset `dy` in `[-r, r]`, exactly one horizontal span at row
`cy + dy` running from `cx - dx` to `cx + dx` with
`dx = ⌊sqrt (max 0 (r² - dy²))⌋` (the `toNat` clamp is the `max 0`, and
the truncation is the C cast of `sqrt` to `int`), symmetric about the
centre column; there are `2r + 1` spans, and at `r = 0` the draw is exactly
one single-pixel span. -/
theorem c5_filled_circle (cx cy r : Int) (hr : 0 ≤ r) :
    draw_filled_circle cx cy r =
      (intRange (-r) r).map (fun dy =>
        DrawOp.seg (cx - (isqrt (r * r - dy * dy).toNat : Int)) (cy + dy)
          (cx + (isqrt (r * r - dy * dy).toNat : Int)) (cy + dy)) ∧
      (draw_filled_circle cx cy r).length = (2 * r + 1).toNat ∧
      (r = 0 → draw_filled_circle cx cy r = [DrawOp.seg cx cy cx cy]) := by
  have heq : draw_filled_circle cx cy r =
      (intRange (-r) r).map (fun dy =>
        DrawOp.seg (cx - (isqrt (r * r - dy * dy).toNat : Int)) (cy + dy)
          (cx + (isqrt (r * r - dy * dy).toNat : Int)) (cy + dy)) := by
    unfold draw_filled_circle
    apply List.map_congr_left
    intro a _
    by_cases hneg : r * r - a * a < 0
    · have h0 : (r * r - a * a).toNat = 0 := Int.toNat_of_nonpos (le_of_lt hneg)
      simp [hneg, h0]
    · simp [hneg]
  have hlen : (draw_filled_circle cx cy r).length = (2 * r + 1).toNat := by
    unfold draw_filled_circle
    rw [List.length_map, length_intRange]
    congr 1
    omega
  refine ⟨heq, hlen, ?_⟩
  intro hr0
  subst hr0
  rw [heq]
  have h1 : intRange (-(0 : Int)) 0 = [0] := by decide
  rw [h1]
  have h2 : isqrt 0 = 0 := rfl
  simp [h2]

/-- Claim C5, witness: at radius 4 there are 9 spans, and at radius 0 the
draw is a single one-pixel span. -/
theorem c5_filled_circle_witness :
    (draw_filled_circle 10 20 4).length = (2 * (4 : Int) + 1).toNat ∧
      draw_filled_circle 5 6 0 = [DrawOp.seg 5 6 5 6] :=
  ⟨(c5_filled_circle 10 20 4 (by decide)).2.1,
    (c5_filled_circle 5 6 0 (by decide)).2.2 rfl⟩

/-- Claim C6: for a segment with distinct endpoints and any thickness `t`,
the stroke draws one full-length parallel line per integer offset `i` in
`[-t/2, t/2]`: each drawn segment is the original translated by the integer
truncation of `i` times the unit perpendicular `(-dy/len, dx/len)` with
`len = sqrt (dx² + dy²)`.  The truncation is characterised exactly in
integer arithmetic: each offset component `u = perpOffX`, `v = perpOffY`
satisfies `u² * s ≤ (i·(-dy))²  < (|u|+1)² * s` (and the same for `v`
against `i·dx`) with `s = dx² + dy²`, and has the sign of the corresponding
numerator — i.e. `u` and `v` are the C casts `(int)(i*nx)`, `(int)(i*ny)`
under exact real semantics of the float arithmetic. -/
theorem c6_thick_line_general (x1 y1 x2 y2 t : Int)
    (h : ¬(x2 - x1 = 0 ∧ y2 - y1 = 0)) :
    draw_thick_line x1 y1 x2 y2 t =
      (intRange (-(Int.tdiv t 2)) (Int.tdiv t 2)).map (fun i =>
        DrawOp.seg (x1 + perpOffX x1 y1 x2 y2 i) (y1 + perpOffY x1 y1 x2 y2 i)
          (x2 + perpOffX x1 y1 x2 y2 i) (y2 + perpOffY x1 y1 x2 y2 i)) ∧
      (draw_thick_line x1 y1 x2 y2 t).length = (2 * Int.tdiv t 2 + 1).toNat ∧
      (∀ i : Int,
        perpOffX x1 y1 x2 y2 i * perpOffX x1 y1 x2 y2 i *
            ((x2 - x1) * (x2 - x1) + (y2 - y1) * (y2 - y1)) ≤
          (i * -(y2 - y1)) * (i * -(y2 - y1)) ∧
        (i * -(y2 - y1)) * (i * -(y2 - y1)) <
          (((perpOffX x1 y1 x2 y2 i).natAbs + 1 : Nat) : Int) *
            (((perpOffX x1 y1 x2 y2 i).natAbs + 1 : Nat) : Int) *
            ((x2 - x1) * (x2 - x1) + (y2 - y1) * (y2 - y1)) ∧
        0 ≤ perpOffX x1 y1 x2 y2 i * (i * -(y2 - y1)) ∧
        perpOffY x1 y1 x2 y2 i * perpOffY x1 y1 x2 y2 i *
            ((x2 - x1) * (x2 - x1) + (y2 - y1) * (y2 - y1)) ≤
          (i * (x2 - x1)) * (i * (x2 - x1)) ∧
        (i * (x2 - x1)) * (i * (x2 - x1)) <
          (((perpOffY x1 y1 x2 y2 i).natAbs + 1 : Nat) : Int) *
            (((perpOffY x1 y1 x2 y2 i).natAbs + 1 : Nat) : Int) *
            ((x2 - x1) * (x2 - x1) + (y2 - y1) * (y2 - y1)) ∧
        0 ≤ perpOffY x1 y1 x2 y2 i * (i * (x2 - x1))) := by
  have hpos : 0 < (x2 - x1) * (x2 - x1) + (y2 - y1) * (y2 - y1) := by
    rcases not_and_or.mp h with h1 | h1
    · have h2 := mul_self_pos.mpr h1
      have h3 := mul_self_nonneg (y2 - y1)
      linarith
    · have h2 := mul_self_pos.mpr h1
      have h3 := mul_self_nonneg (x2 - x1)
      linarith
  have hsnat : 0 < ((x2 - x1) * (x2 - x1) + (y2 - y1) * (y2 - y1)).toNat := by
    omega
  have hcast : ((((x2 - x1) * (x2 - x1) + (y2 - y1) * (y2 - y1)).toNat : Nat) : Int) =
      (x2 - x1) * (x2 - x1) + (y2 - y1) * (y2 - y1) :=
    Int.toNat_of_nonneg (le_of_lt hpos)
  have hform : draw_thick_line x1 y1 x2 y2 t =
      (intRange (-(Int.tdiv t 2)) (Int.tdiv t 2)).map (fun i =>
        DrawOp.seg (x1 + perpOffX x1 y1 x2 y2 i) (y1 + perpOffY x1 y1 x2 y2 i)
          (x2 + perpOffX x1 y1 x2 y2 i) (y2 + perpOffY x1 y1 x2 y2 i)) := by
    simp [draw_thick_line, h]
  refine ⟨hform, ?_, ?_⟩
  · rw [hform, List.length_map, length_intRange]
    have : (Int.tdiv t 2 + 1 - -(Int.tdiv t 2)).toNat =
        (2 * Int.tdiv t 2 + 1).toNat := by omega
    rw [this]
  · intro i
    have hX := truncDivSqrt_spec (i * -(y2 - y1))
      (((x2 - x1) * (x2 - x1) + (y2 - y1) * (y2 - y1)).toNat) hsnat
    have hY := truncDivSqrt_spec (i * (x2 - x1))
      (((x2 - x1) * (x2 - x1) + (y2 - y1) * (y2 - y1)).toNat) hsnat
    rw [hcast] at hX hY
    exact ⟨hX.1, hX.2.1, hX.2.2, hY.1, hY.2.1, hY.2.2⟩

/-- Claim C6, witness: the concrete segment `(0,0)-(3,4)` at thickness 5
draws `2*(5/2)+1 = 5` parallel segments. -/
theorem c6_thick_line_general_witness :
    (draw_thick_line 0 0 3 4 5).length = (2 * Int.tdiv 5 2 + 1).toNat :=
  (c6_thick_line_general 0 0 3 4 5 (by decide)).2.1

/-! ### Concrete behaviour checks against the C source -/

example : (draw_thick_line 0 0 0 0 4).length = 25 := by decide
example : (draw_thick_line 0 0 0 0 5).length = 25 := by decide
example : draw_filled_circle 5 6 0 = [DrawOp.seg 5 6 5 6] := by decide
example : (draw_filled_circle 0 0 4).length = 9 := by decide
example :
    draw_thick_line 0 0 3 4 5 =
      [DrawOp.seg 1 (-1) 4 3, DrawOp.seg 0 0 3 4, DrawOp.seg 0 0 3 4,
       DrawOp.seg 0 0 3 4, DrawOp.seg (-1) 1 2 5] := by decide


example : classifyLine (strOf "point(10,10,\"A\")") = .point 10 10 ['A'] := by decide
example : classifyLine (strOf "line(A,B)") = .diag .lineFail := by decide
example : classifyLine (strOf "line(1,2,3,4)") = .lineSeg 1 2 3 4 := by decide
example : classifyLine (strOf " #c") = .diag .unrecognized := by decide
example : classifyLine (strOf "#point(1,2,\"A\")") = .ignored := by decide
example : classifyLine (strOf "point(1,2,A)") = .diag .pointFail := by decide
example : classifyLine (strOf "point(1,2,\"\")") = .point 1 2 [] := by decide
example : classifyLine (strOf "point(x) line(1,2,3,4)") = .diag .pointFail := by decide
example : classifyLine (strOf "point( -3 , +7 ,  \" A b \" junk)") = .point (-3) 7 [' ', 'A', ' ', 'b', ' '] := by decide
example : classifyLine (strOf "line( 1, 2, 3, 4)") = .lineSeg 1 2 3 4 := by decide
example : classifyLine (strOf "line( 1 , 2 , 3 , 4 )") = .diag .lineFail := by decide
example : classifyLine (strOf "line(1 ,2,3,4)") = .diag .lineFail := by decide
example :
    parse_drawing_file
      [strOf "point(10,10,\"A\")", strOf "point(50,10,\"B\")", strOf "line(A,B)"] =
      ⟨[⟨10, 10, ['A']⟩, ⟨50, 10, ['B']⟩], [], 1⟩ := by decide
